import Mathlib

/-!
Verification of the ESP32 soil-moisture MQTT scheduler (`src/main/main.c`).

The embedding models the scheduling core of `adc_mqtt_task` together with
`get_current_time` and the readiness wait.  External collaborators (the ADC,
the MQTT client, the FreeRTOS event-group primitive, `localtime_r`) appear as
oracle inputs or as models of their documented interface semantics.
-/

namespace SoilMoisture

/-- A wall-clock sample as consumed by the task: hour and minute of day
(`current_hour`, `current_minute` in `adc_mqtt_task`). -/
structure TimeHM where
  hour : Nat
  minute : Nat
deriving DecidableEq, Repr

/-- The three per-window sent-today flags of `adc_mqtt_task`
(`sent_morning`, `sent_afternoon`, `sent_evening`, main.c line 145). -/
structure Flags where
  sent_morning : Bool
  sent_afternoon : Bool
  sent_evening : Bool
deriving DecidableEq, Repr

/-- Initial flag state: all false (main.c line 145). -/
def Flags.init : Flags := ⟨false, false, false⟩

/-- The three hardcoded daily windows of the task (main.c lines 166-168). -/
inductive Window
  | morning
  | afternoon
  | evening
deriving DecidableEq, Repr, Fintype

/-- The configured (hour, minute) of each window (main.c lines 166-168). -/
def windowTime : Window → TimeHM
  | .morning => ⟨5, 0⟩
  | .afternoon => ⟨10, 0⟩
  | .evening => ⟨14, 0⟩

/-- Projection of the sent-today flag for a window. -/
def sent (w : Window) (f : Flags) : Bool :=
  match w with
  | .morning => f.sent_morning
  | .afternoon => f.sent_afternoon
  | .evening => f.sent_evening

/-- Midnight reset (main.c lines 158-163): clear all flags exactly when the
sampled time is 00:00. -/
def resetAtMidnight (t : TimeHM) (f : Flags) : Flags :=
  if t.hour = 0 ∧ t.minute = 0 then ⟨false, false, false⟩ else f

/-- The fire condition of the task (main.c lines 166-168): the disjunction
over the three windows, each guarded by its sent-today flag. -/
def fireCond (t : TimeHM) (f : Flags) : Prop :=
  (t.hour = 5 ∧ t.minute = 0 ∧ f.sent_morning = false) ∨
  (t.hour = 10 ∧ t.minute = 0 ∧ f.sent_afternoon = false) ∨
  (t.hour = 14 ∧ t.minute = 0 ∧ f.sent_evening = false)

instance (t : TimeHM) (f : Flags) : Decidable (fireCond t f) := by
  unfold fireCond; infer_instance

/-- The hour dispatch of the flag update inside the fire block
(main.c lines 190-196): which window the tick is attributed to. -/
def matchedWindow (t : TimeHM) : Option Window :=
  if t.hour = 5 then some .morning
  else if t.hour = 10 then some .afternoon
  else if t.hour = 14 then some .evening
  else none

/-- The flag update inside the fire block (main.c lines 190-196). -/
def markFired (t : TimeHM) (f : Flags) : Flags :=
  if t.hour = 5 then { f with sent_morning := true }
  else if t.hour = 10 then { f with sent_afternoon := true }
  else if t.hour = 14 then { f with sent_evening := true }
  else f

/-- One scheduler tick on a valid time sample (main.c lines 158-197):
midnight reset, then the fire check; returns the new flags and the window
fired this tick, if any. -/
def tick (t : TimeHM) (f : Flags) : Flags × Option Window :=
  if fireCond t (resetAtMidnight t f) then
    (markFired t (resetAtMidnight t f), matchedWindow t)
  else (resetAtMidnight t f, none)

/-- Minutes since local midnight, the order in which in-day samples arrive. -/
def toMin (t : TimeHM) : Nat := t.hour * 60 + t.minute

/-- Run the scheduler over a list of valid time samples, collecting the
sequence of fire decisions. -/
def run (f : Flags) : List TimeHM → Flags × List Window
  | [] => (f, [])
  | t :: ts =>
    let s := tick t f
    let r := run s.1 ts
    (r.1, s.2.toList ++ r.2)

/-- The single topic every publish goes to (main.c line 187). -/
def mqttTopic : String := "garden/soil-moisture/s-1"

/-- A publish attempt as issued by the fire block (main.c line 187):
the window it was issued for and the topic handed to the client. -/
structure PubEvent where
  win : Window
  topic : String
deriving DecidableEq, Repr

/-- The publish attempts generated by a run: one per fire decision, always to
the hardcoded topic (main.c lines 185-187). -/
def runPubs (f : Flags) (ts : List TimeHM) : List PubEvent :=
  ((run f ts).2).map (fun w => ⟨w, mqttTopic⟩)

/-- The calibration of a raw ADC sample (main.c lines 173-180):
`100 - (raw - 2300) * 100 / 1795`, clamped to [0, 100].  The C float
arithmetic is modelled over ℚ; both concrete values the spec names are exact
in either arithmetic. -/
def calibrate (raw : ℤ) : ℚ :=
  let p : ℚ := 100 - ((raw - 2300) * 100) / 1795
  if p > 100 then 100 else if p < 0 then 0 else p

/-- A broken-down local time as produced by `localtime_r`; `tm_year` counts
years since 1900 as in `struct tm`. -/
structure Tm where
  tm_year : ℤ
  tm_hour : Nat
  tm_min : Nat
deriving DecidableEq, Repr

/-- `get_current_time` (main.c lines 45-61): reports no sample when the
year indicates an unsynchronized clock, otherwise hour and minute. -/
def get_current_time (ti : Tm) : Option TimeHM :=
  if ti.tm_year < (2023 - 1900 : ℤ) then none
  else some ⟨ti.tm_hour, ti.tm_min⟩

/-- Oracle inputs consumed by one iteration of the task loop
(main.c lines 147-201): the clock read, the raw ADC value, and the result
the MQTT client would return for a publish. -/
structure IterInput where
  clock : Option TimeHM
  adcRaw : ℤ
  pubOk : Bool
deriving Repr

/-- One full loop iteration after the readiness wait (main.c lines 151-200):
on an invalid clock read, delay 5000 ms and restart with nothing changed;
otherwise run the tick, publishing once on fire, then delay 1000 ms.
Returns the new flags, the publish attempts made, and the delay taken. -/
def iter (inp : IterInput) (f : Flags) : Flags × List PubEvent × Nat :=
  match inp.clock with
  | none => (f, [], 5000)
  | some t =>
    let s := tick t f
    match s.2 with
    | some w => (s.1, [⟨w, mqttTopic⟩], 1000)
    | none => (s.1, [], 1000)

/-- The two readiness bits of the event group (main.c lines 24-26):
`WIFI_CONNECTED_BIT` and `MQTT_CONNECTED_BIT`. -/
structure ReadyBits where
  wifi : Bool
  mqtt : Bool
deriving DecidableEq, Repr

/-- Both required bits set: the unblock condition of the wait at
main.c line 149. -/
def allSet (b : ReadyBits) : Bool := b.wifi && b.mqtt

/-- Modelled from the documented FreeRTOS semantics of
`xEventGroupWaitBits` waiting for all of the two bits: the flag state at the
moment the call returns unblocked — the waited-for bits are cleared on exit
exactly when the clear-on-exit argument is true, otherwise left untouched. -/
def waitBitsExit (b : ReadyBits) (clearOnExit : Bool) : ReadyBits :=
  if allSet b then (if clearOnExit then ⟨false, false⟩ else b) else b

/-- The clear-on-exit argument the task actually passes (main.c line 149,
third argument: `false`). -/
def schedulerClearOnExit : Bool := false

/-- The per-window topics of the specification scenario
(spec §3 WindowSpec and §8: windows carry their own configured topic,
distinct per window).  Stated from the spec for comparison with the code;
the code has no per-window topic. -/
def specWindowTopic : Window → String
  | .morning => "t1"
  | .afternoon => "t2"
  | .evening => "t3"

/-- A valid time sample together with the calendar day it belongs to.  The
day is visible to an outside observer of the trace; the task itself only ever
reads hour and minute. -/
structure DatedSample where
  day : Nat
  hour : Nat
  minute : Nat
deriving DecidableEq, Repr

/-- The part of a dated sample the task actually consumes. -/
def DatedSample.toHM (s : DatedSample) : TimeHM := ⟨s.hour, s.minute⟩

/-- The scheduler tick on a dated sample: the code reads only hour and
minute of it. -/
def tickDated (s : DatedSample) (f : Flags) : Flags × Option Window :=
  tick s.toHM f

theorem resetAtMidnight_eq_of_pos (t : TimeHM) (f : Flags) (h : 0 < toMin t) :
    resetAtMidnight t f = f := by
  unfold toMin at h
  unfold resetAtMidnight
  rw [if_neg]
  rintro ⟨h1, h2⟩
  omega

theorem sent_markFired_of_sent (t : TimeHM) (f : Flags) (v : Window)
    (h : sent v f = true) : sent v (markFired t f) = true := by
  cases v <;> unfold markFired <;> (repeat' split) <;> simp_all [sent]

theorem matchedWindow_hour (t : TimeHM) (w : Window)
    (h : matchedWindow t = some w) : t.hour = (windowTime w).hour := by
  by_cases h5 : t.hour = 5
  · simp [matchedWindow, h5] at h
    subst h
    simp [windowTime, h5]
  · by_cases h10 : t.hour = 10
    · simp [matchedWindow, h5, h10] at h
      subst h
      simp [windowTime, h10]
    · by_cases h14 : t.hour = 14
      · simp [matchedWindow, h5, h10, h14] at h
        subst h
        simp [windowTime, h14]
      · simp [matchedWindow, h5, h10, h14] at h

theorem windowTime_hour_pos (w : Window) : 0 < (windowTime w).hour := by
  cases w <;> decide

theorem tick_fire_spec (t : TimeHM) (f : Flags) (w : Window)
    (h : (tick t f).2 = some w) :
    t = windowTime w ∧ sent w f = false ∧ (tick t f).1 = markFired t f := by
  unfold tick at h ⊢
  split at h
  case isTrue hc =>
    have hmw : matchedWindow t = some w := h
    have hhour : t.hour = (windowTime w).hour := matchedWindow_hour t w hmw
    have hpos : 0 < toMin t := by
      have := windowTime_hour_pos w
      unfold toMin
      omega
    rw [resetAtMidnight_eq_of_pos t f hpos] at hc ⊢
    rw [if_pos hc]
    refine ⟨?_, ?_, rfl⟩ <;>
      cases w <;>
      simp [windowTime] at hhour <;>
      rcases hc with ⟨h1, h2, h3⟩ | ⟨h1, h2, h3⟩ | ⟨h1, h2, h3⟩ <;>
      first
        | omega
        | (cases t; simp_all [windowTime, sent])
  case isFalse => simp at h

theorem windowTime_pos (w : Window) : 0 < toMin (windowTime w) := by
  cases w <;> decide

theorem tick_fire_sets (t : TimeHM) (f : Flags) (w : Window)
    (h : (tick t f).2 = some w) : sent w (tick t f).1 = true := by
  obtain ⟨ht, _, h1⟩ := tick_fire_spec t f w h
  rw [h1, ht]
  cases w <;> cases f <;> simp [windowTime, markFired, sent]

theorem tick_fire_frame (t : TimeHM) (f : Flags) (w : Window)
    (h : (tick t f).2 = some w) :
    ∀ v, v ≠ w → sent v (tick t f).1 = sent v f := by
  obtain ⟨ht, _, h1⟩ := tick_fire_spec t f w h
  intro v hv
  rw [h1, ht]
  cases w <;> cases v <;> simp_all [windowTime, markFired, sent]

theorem tick_no_fire_of_sent (t : TimeHM) (f : Flags) (w : Window)
    (hs : sent w f = true) : (tick t f).2 ≠ some w := by
  intro h
  obtain ⟨_, hfalse, _⟩ := tick_fire_spec t f w h
  rw [hs] at hfalse
  exact Bool.noConfusion hfalse

theorem tick_sent_preserved (t : TimeHM) (f : Flags) (w : Window)
    (hs : sent w f = true) (hp : 0 < toMin t) :
    sent w (tick t f).1 = true := by
  unfold tick
  rw [resetAtMidnight_eq_of_pos t f hp]
  split
  · exact sent_markFired_of_sent t f w hs
  · exact hs

theorem tick_fire_pos (t : TimeHM) (f : Flags) (w : Window)
    (h : (tick t f).2 = some w) : 0 < toMin t := by
  obtain ⟨ht, _, _⟩ := tick_fire_spec t f w h
  rw [ht]
  exact windowTime_pos w

theorem run_count_zero (w : Window) (f : Flags) (ts : List TimeHM)
    (hs : sent w f = true) (hp : ∀ t ∈ ts, 0 < toMin t) :
    (run f ts).2.count w = 0 := by
  induction ts generalizing f with
  | nil => simp [run]
  | cons t ts ih =>
    have hpos : 0 < toMin t := hp t (List.mem_cons_self t ts)
    have hnf : (tick t f).2 ≠ some w := tick_no_fire_of_sent t f w hs
    have hsent : sent w (tick t f).1 = true := tick_sent_preserved t f w hs hpos
    have hrest := ih (tick t f).1 hsent (fun u hu => hp u (List.mem_cons_of_mem t hu))
    simp only [run, List.count_append]
    rw [hrest]
    cases h2 : (tick t f).2 with
    | none => simp [h2]
    | some v =>
      have hvw : v ≠ w := by intro he; exact hnf (he ▸ h2)
      simp [h2, List.count_singleton, hvw]

theorem run_count_le_one (f : Flags) (ts : List TimeHM)
    (hord : ts.Pairwise (fun a b => toMin a ≤ toMin b)) (w : Window) :
    (run f ts).2.count w ≤ 1 := by
  induction ts generalizing f with
  | nil => simp [run]
  | cons t ts ih =>
    rw [List.pairwise_cons] at hord
    obtain ⟨hall, hord2⟩ := hord
    simp only [run, List.count_append]
    cases h2 : (tick t f).2 with
    | none => simpa using ih (tick t f).1 hord2
    | some v =>
      by_cases hvw : v = w
      · subst hvw
        have hsent : sent v (tick t f).1 = true := tick_fire_sets t f v h2
        have hpos : 0 < toMin t := tick_fire_pos t f v h2
        have hz : (run (tick t f).1 ts).2.count v = 0 :=
          run_count_zero v (tick t f).1 ts hsent
            (fun u hu => lt_of_lt_of_le hpos (hall u hu))
        simp [hz, List.count_singleton]
      · have hrest := ih (tick t f).1 hord2
        simp only [Option.toList_some, List.count_cons, List.count_nil]
        simp [hvw]
        omega

/-- C1: for any run of valid time samples fed in non-decreasing order within
one calendar day, each of the three windows produces at most one fire
decision, and hence at most one attempted publish: once its sent-today flag
is set by a fire, no later tick of the day fires it again. -/
theorem C1_at_most_one_fire_per_day (f : Flags) (ts : List TimeHM)
    (_hvalid : ∀ t ∈ ts, t.hour ≤ 23 ∧ t.minute ≤ 59)
    (hord : ts.Pairwise (fun a b => toMin a ≤ toMin b)) (w : Window) :
    (run f ts).2.count w ≤ 1 ∧
    (runPubs f ts).countP (fun e => e.win == w) ≤ 1 := by
  have h1 := run_count_le_one f ts hord w
  refine ⟨h1, ?_⟩
  unfold runPubs
  rw [List.countP_map]
  simpa [Function.comp, List.count] using h1

/-- Witness for C1 at the day [00:00, 05:00, 05:00] from the initial state:
the morning window fires exactly once. -/
theorem C1_at_most_one_fire_per_day_witness :
    (∀ t ∈ [(⟨0, 0⟩ : TimeHM), ⟨5, 0⟩, ⟨5, 0⟩], t.hour ≤ 23 ∧ t.minute ≤ 59) ∧
    ([(⟨0, 0⟩ : TimeHM), ⟨5, 0⟩, ⟨5, 0⟩].Pairwise (fun a b => toMin a ≤ toMin b)) ∧
    ((run Flags.init [⟨0, 0⟩, ⟨5, 0⟩, ⟨5, 0⟩]).2.count .morning ≤ 1 ∧
      (runPubs Flags.init [⟨0, 0⟩, ⟨5, 0⟩, ⟨5, 0⟩]).countP
        (fun e => e.win == .morning) ≤ 1) :=
  ⟨by decide, by decide,
    C1_at_most_one_fire_per_day Flags.init [⟨0, 0⟩, ⟨5, 0⟩, ⟨5, 0⟩]
      (by decide) (by decide) .morning⟩

/-- C2 counterexample: the evening window fires on day 0 at 14:00; the next
valid sample is on day 1 at 00:01 (calendar day changed, no sample at exactly
00:00), yet the evening flag is still set afterwards — the code resets only
on an exact-midnight sample, not by calendar-day comparison. -/
theorem C2_day_comparison_counterexample :
    (tickDated ⟨0, 14, 0⟩ Flags.init).2 = some .evening ∧
    (⟨1, 0, 1⟩ : DatedSample).day ≠ (⟨0, 14, 0⟩ : DatedSample).day ∧
    sent .evening (tickDated ⟨1, 0, 1⟩ (tickDated ⟨0, 14, 0⟩ Flags.init).1).1
      = true := by
  decide

/-- C2 (amended): day rollover is detected by exact-midnight match, not by
calendar-day comparison: a tick at exactly 00:00 clears all flags, and on any
tick not at exactly 00:00 every set flag stays set, regardless of any change
of calendar day. -/
theorem C2_midnight_only_reset (t : TimeHM) (f : Flags) :
    (t.hour = 0 ∧ t.minute = 0 → (tick t f).1 = Flags.init) ∧
    (¬(t.hour = 0 ∧ t.minute = 0) →
      ∀ w, sent w f = true → sent w (tick t f).1 = true) := by
  constructor
  · rintro ⟨h1, h2⟩
    have ht : t = ⟨0, 0⟩ := by cases t; simp_all
    subst ht
    simp [tick, resetAtMidnight, fireCond, Flags.init]
  · intro hne w hw
    have hpos : 0 < toMin t := by
      unfold toMin
      omega
    exact tick_sent_preserved t f w hw hpos

/-- Witness for the amended C2: a 00:00 tick clears a fully-fired state, and
a 00:01 tick leaves the evening flag set. -/
theorem C2_midnight_only_reset_witness :
    (tick ⟨0, 0⟩ ⟨true, true, true⟩).1 = Flags.init ∧
    sent .evening (tick ⟨0, 1⟩ ⟨true, true, true⟩).1 = true :=
  ⟨(C2_midnight_only_reset ⟨0, 0⟩ ⟨true, true, true⟩).1 ⟨rfl, rfl⟩,
   (C2_midnight_only_reset ⟨0, 1⟩ ⟨true, true, true⟩).2 (by decide) .evening rfl⟩

/-- C3: the calibration is a pure total function whose output is always in
[0, 100]; raw 500 maps to exactly 100 and raw 4095 to exactly 0. -/
theorem C3_calibrate_pure_clamped (raw : ℤ) :
    0 ≤ calibrate raw ∧ calibrate raw ≤ 100 ∧
    calibrate 500 = 100 ∧ calibrate 4095 = 0 := by
  refine ⟨?_, ?_, ?_, ?_⟩
  · simp only [calibrate]
    split
    · norm_num
    · split
      · norm_num
      · rename_i h2
        exact le_of_not_lt h2
  · simp only [calibrate]
    split
    · norm_num
    · split
      · norm_num
      · rename_i h1 h2
        exact le_of_not_lt h1
  · norm_num [calibrate]
  · norm_num [calibrate]

/-- C4: a valid sample equal to an armed window's time yields exactly that
window as the single fire decision of the tick, and the configured window
times are pairwise distinct, so the first-match tie-break never has to choose
between two windows. -/
theorem C4_single_fire_per_tick (t : TimeHM) (f : Flags) (w : Window)
    (hmatch : t = windowTime w) (harmed : sent w f = false) :
    (tick t f).2 = some w ∧
    ∀ v v', windowTime v = windowTime v' → v = v' := by
  subst hmatch
  refine ⟨?_, by decide⟩
  cases w <;> cases f <;>
    simp_all [tick, windowTime, resetAtMidnight, fireCond, matchedWindow, sent]

/-- Witness for C4 at the morning window from the initial state. -/
theorem C4_single_fire_per_tick_witness :
    ((⟨5, 0⟩ : TimeHM) = windowTime .morning) ∧
    sent .morning Flags.init = false ∧
    ((tick ⟨5, 0⟩ Flags.init).2 = some .morning ∧
      ∀ v v', windowTime v = windowTime v' → v = v') :=
  ⟨rfl, rfl, C4_single_fire_per_tick ⟨5, 0⟩ Flags.init .morning rfl rfl⟩

/-- C5 counterexample: the morning and afternoon windows both publish to the
single hardcoded topic; under the specification scenario their configured
topics are distinct, so distinct windows do not publish to distinct topics,
nor to their own configured topic. -/
theorem C5_shared_topic_counterexample :
    runPubs Flags.init [⟨5, 0⟩, ⟨10, 0⟩] =
      [⟨.morning, mqttTopic⟩, ⟨.afternoon, mqttTopic⟩] ∧
    specWindowTopic .morning ≠ specWindowTopic .afternoon ∧
    (runPubs Flags.init [⟨5, 0⟩, ⟨10, 0⟩]).map PubEvent.topic ≠
      [specWindowTopic .morning, specWindowTopic .afternoon] ∧
    mqttTopic ≠ specWindowTopic .morning := by
  refine ⟨by decide, by decide, by decide, by decide⟩

/-- C5 (amended): every publish attempt of any run goes to the one hardcoded
topic string, identical for all windows. -/
theorem C5_constant_topic (f : Flags) (ts : List TimeHM) :
    ∀ e ∈ runPubs f ts, e.topic = mqttTopic := by
  intro e he
  unfold runPubs at he
  rw [List.mem_map] at he
  obtain ⟨w, _, rfl⟩ := he
  rfl

/-- Witness for the amended C5: the publish fired at 05:00 from the initial
state carries the hardcoded topic. -/
theorem C5_constant_topic_witness :
    (⟨.morning, mqttTopic⟩ : PubEvent) ∈ runPubs Flags.init [⟨5, 0⟩] ∧
    (⟨.morning, mqttTopic⟩ : PubEvent).topic = mqttTopic :=
  ⟨by decide,
   C5_constant_topic Flags.init [⟨5, 0⟩] ⟨.morning, mqttTopic⟩ (by decide)⟩

/-- C6: the loop iteration's resulting flag state does not depend on the
result the MQTT client returns for the publish, and on a fire the fired
window's flag is set whatever that result was. -/
theorem C6_publish_failure_no_rollback (t : TimeHM) (f : Flags) (raw : ℤ)
    (r1 r2 : Bool) (w : Window) (hfire : (tick t f).2 = some w) :
    (iter ⟨some t, raw, r1⟩ f).1 = (iter ⟨some t, raw, r2⟩ f).1 ∧
    sent w (iter ⟨some t, raw, r1⟩ f).1 = true := by
  constructor
  · rfl
  · simp only [iter, hfire]
    exact tick_fire_sets t f w hfire

/-- Witness for C6: a failed publish (result false) at the 05:00 fire still
leaves the morning flag set, with the same state as a successful one. -/
theorem C6_publish_failure_no_rollback_witness :
    (tick ⟨5, 0⟩ Flags.init).2 = some .morning ∧
    ((iter ⟨some ⟨5, 0⟩, 0, false⟩ Flags.init).1 =
        (iter ⟨some ⟨5, 0⟩, 0, true⟩ Flags.init).1 ∧
      sent .morning (iter ⟨some ⟨5, 0⟩, 0, false⟩ Flags.init).1 = true) :=
  ⟨by decide,
   C6_publish_failure_no_rollback ⟨5, 0⟩ Flags.init 0 false true .morning
     (by decide)⟩

/-- C7: on an invalid clock read the iteration changes no flag, makes no
publish attempt, and takes the fixed 5000 ms backoff delay. -/
theorem C7_invalid_time_atomic (ti : Tm) (raw : ℤ) (r : Bool) (f : Flags)
    (hinv : get_current_time ti = none) :
    iter ⟨get_current_time ti, raw, r⟩ f = (f, [], 5000) := by
  rw [hinv]
  rfl

/-- Witness for C7: an unsynchronized clock (tm_year 70, i.e. 1970) leaves a
fully-fired state untouched with no publish and the 5000 ms backoff. -/
theorem C7_invalid_time_atomic_witness :
    get_current_time ⟨70, 12, 30⟩ = none ∧
    iter ⟨get_current_time ⟨70, 12, 30⟩, 0, true⟩ ⟨true, false, true⟩ =
      (⟨true, false, true⟩, [], 5000) :=
  ⟨by decide, C7_invalid_time_atomic ⟨70, 12, 30⟩ 0 true ⟨true, false, true⟩
    (by decide)⟩

/-- C8: the clock sample is reported invalid exactly when the reported
calendar year is earlier than 2023, and a valid sample carries an hour in
0..23 and a minute in 0..59 whenever the broken-down time does. -/
theorem C8_time_validity (ti : Tm) (hh : ti.tm_hour ≤ 23)
    (hm : ti.tm_min ≤ 59) :
    (get_current_time ti = none ↔ ti.tm_year + 1900 < 2023) ∧
    ∀ s, get_current_time ti = some s → s.hour ≤ 23 ∧ s.minute ≤ 59 := by
  unfold get_current_time
  constructor
  · by_cases hy : ti.tm_year < (2023 - 1900 : ℤ)
    · rw [if_pos hy]
      constructor
      · intro _
        omega
      · intro _
        rfl
    · rw [if_neg hy]
      constructor
      · intro h
        exact (Option.some_ne_none _ h).elim
      · intro h2
        exact absurd (by omega : ti.tm_year < (2023 - 1900 : ℤ)) hy
  · intro s hs
    by_cases hy : ti.tm_year < (2023 - 1900 : ℤ)
    · rw [if_pos hy] at hs
      exact Option.noConfusion hs
    · rw [if_neg hy] at hs
      injection hs with hs
      subst hs
      exact ⟨hh, hm⟩

/-- Witness for C8 at a synchronized clock reading (year 2023, 05:00). -/
theorem C8_time_validity_witness :
    (⟨123, 5, 0⟩ : Tm).tm_hour ≤ 23 ∧ (⟨123, 5, 0⟩ : Tm).tm_min ≤ 59 ∧
    (get_current_time ⟨123, 5, 0⟩ = none ↔ (123 : ℤ) + 1900 < 2023) ∧
    ((⟨5, 0⟩ : TimeHM).hour ≤ 23 ∧ (⟨5, 0⟩ : TimeHM).minute ≤ 59) :=
  ⟨by decide, by decide,
   (C8_time_validity ⟨123, 5, 0⟩ (by decide) (by decide)).1,
   (C8_time_validity ⟨123, 5, 0⟩ (by decide) (by decide)).2 ⟨5, 0⟩ (by decide)⟩

/-- C9: a fire for a window sets exactly that window's flag; every other
window's flag is unchanged from before the tick. -/
theorem C9_fire_frame (t : TimeHM) (f : Flags) (w : Window)
    (hfire : (tick t f).2 = some w) :
    sent w (tick t f).1 = true ∧
    ∀ v, v ≠ w → sent v (tick t f).1 = sent v f :=
  ⟨tick_fire_sets t f w hfire, tick_fire_frame t f w hfire⟩

/-- Witness for C9 at the morning fire from the initial state: the afternoon
flag is untouched. -/
theorem C9_fire_frame_witness :
    (tick ⟨5, 0⟩ Flags.init).2 = some .morning ∧
    sent .morning (tick ⟨5, 0⟩ Flags.init).1 = true ∧
    sent .afternoon (tick ⟨5, 0⟩ Flags.init).1 = sent .afternoon Flags.init :=
  ⟨by decide,
   (C9_fire_frame ⟨5, 0⟩ Flags.init .morning (by decide)).1,
   (C9_fire_frame ⟨5, 0⟩ Flags.init .morning (by decide)).2 .afternoon
     (by decide)⟩

/-- C10: the readiness wait is called with clear-on-exit disabled, so an
unblocked wait returns the bit state unchanged and both bits are still set
afterwards. -/
theorem C10_wait_preserves_bits (b : ReadyBits) (h : allSet b = true) :
    waitBitsExit b schedulerClearOnExit = b ∧
    allSet (waitBitsExit b schedulerClearOnExit) = true := by
  constructor <;> simp [waitBitsExit, schedulerClearOnExit, h]

/-- Witness for C10 with both bits set. -/
theorem C10_wait_preserves_bits_witness :
    allSet ⟨true, true⟩ = true ∧
    (waitBitsExit ⟨true, true⟩ schedulerClearOnExit = ⟨true, true⟩ ∧
      allSet (waitBitsExit ⟨true, true⟩ schedulerClearOnExit) = true) :=
  ⟨rfl, C10_wait_preserves_bits ⟨true, true⟩ rfl⟩

end SoilMoisture
